import Mathlib

/- Verification of the symmio-analytics synchronization-and-snapshot pipeline.

   The definitions below are a shallow embedding of the Python sources:
   - `sync_data`, `do_fetch_snapshot`, `pipeline` embed
     back_app/services/snapshot/snapshot_job.py;
   - `prepare_hedger_binance_snapshot` embeds
     back_app/services/snapshot/hedger_binance_snapshot.py;
   - `saveRow` / `upsertRow` embed BaseModel.save / BaseModel.upsert of
     back_app/app/models.py.
   Python ints are modelled as ℤ, Decimal/float amounts as ℚ (exact), datetimes
   as ℤ seconds.  External reads (chain head, indexer state, exchange REST) are
   inputs supplied through environment records. -/

namespace Symmio

/-- The tenant configuration row (the cursor store).  The pipeline code reads and
writes fields `lastSyncBlock`, `lastSnapshotBlock` and `snapshotBlockLag`;
`lastSnapshotBlock` is `Option ℤ` because the row may not carry a value yet and the
code guards it with Python truthiness (`config.lastSnapshotBlock and ...`). -/
structure RuntimeConfiguration where
  lastSyncBlock : ℤ
  lastSnapshotBlock : Option ℤ
  snapshotBlockLag : ℤ
  deriving DecidableEq

/-- The seven synced entity types, in the fixed dependency order of snapshot_job.sync_data. -/
inductive SyncedEntityType where
  | user | symbol | account | balanceChange | quote | tradeHistory | dailyHistory
  deriving DecidableEq

/-- The order in which sync_data drives the synchronizer (snapshot_job.py lines 48-54). -/
def syncOrder : List SyncedEntityType :=
  [.user, .symbol, .account, .balanceChange, .quote, .tradeHistory, .dailyHistory]

/-- The external world seen by sync_data: `head t` is the chain head returned by the
t-th `Block.latest` read (pass k reads at times 2k and, on error, 2k+1); `idx k j` is
the block number the indexer has indexed up to when pass k syncs the j-th entity. -/
structure SyncEnv where
  head : ℕ → ℤ
  idx : ℕ → ℕ → ℤ

/-- Modelled from the spec: SubgraphClient.sync is not under src/; per the spec
(§4.1, §4.2) a synchronizer call raises the error whose message contains
"only indexed up to block number N" exactly when the indexer has not yet indexed up
to the requested target block, and any such error carries the indexer's last
indexed block N.  This walks the entity list in order and returns the first such N,
or `none` when the whole pass succeeds. -/
def runEntitySyncs (idxOf : ℕ → ℤ) (target : ℤ) :
    List SyncedEntityType → ℕ → Option ℤ
  | [], _ => none
  | _ :: rest, pos =>
      if idxOf pos < target then some (idxOf pos) else runEntitySyncs idxOf target rest (pos + 1)

/-- The kind of a committed configuration change: the indexer-lag recovery commit
(snapshot_job.py lines 61-63), the successful sync commit (lines 68-71), and the
successful snapshot commit (lines 106-108). -/
inductive CommitKind where
  | lagRecovery | syncSuccess | snapshotSuccess
  deriving DecidableEq

/-- One committed configuration state, tagged with what produced it. -/
structure Commit where
  kind : CommitKind
  cfg : RuntimeConfiguration
  deriving DecidableEq

/-- Result of sync_data: the committed-configuration trace, the next pass counter,
the final configuration and the resolved block number, or exhaustion of the call
stack (the source recurses unboundedly; the fuel models its call depth). -/
inductive SyncResult where
  | ok (trace : List Commit) (k : ℕ) (cfg : RuntimeConfiguration) (blockNumber : ℤ)
  | fuelOut (trace : List Commit)
  deriving DecidableEq

/-- Prepend a commit to the trace of a result. -/
def consCommit (c : Commit) : SyncResult → SyncResult
  | .ok tr k cfg b => .ok (c :: tr) k cfg b
  | .fuelOut tr => .fuelOut (c :: tr)

/-- Embedding of snapshot_job.sync_data.  A pass reads the chain head, targets
`head - snapshotBlockLag` (Block.backward is modelled from the spec §4.2:
target = currentChainHead - snapshotBlockLag), and runs the seven entity syncs in
order.  On the "only indexed up to block number N" error it re-reads the head, sets
`snapshotBlockLag = head - N`, commits, and restarts the whole sequence; on success
it commits `lastSyncBlock = target` and
`snapshotBlockLag = max (snapshotBlockLag - SNAPSHOT_BLOCK_LAG_STEP) SNAPSHOT_BLOCK_LAG`
(`stp` and `floor` here). -/
def sync_data (env : SyncEnv) (floor stp : ℤ) : ℕ → ℕ → RuntimeConfiguration → SyncResult
  | 0, _, _ => .fuelOut []
  | fuel + 1, k, cfg =>
      let target := env.head (2 * k) - cfg.snapshotBlockLag
      match runEntitySyncs (env.idx k) target syncOrder 0 with
      | some lastSyncedBlock =>
          let cfg' := { cfg with snapshotBlockLag := env.head (2 * k + 1) - lastSyncedBlock }
          consCommit ⟨.lagRecovery, cfg'⟩ (sync_data env floor stp fuel (k + 1) cfg')
      | none =>
          let cfg' := { cfg with
            lastSyncBlock := target,
            snapshotBlockLag := max (cfg.snapshotBlockLag - stp) floor }
          .ok [⟨.syncSuccess, cfg'⟩] (k + 1) cfg' target

/-- The actors configured for a tenant (context.affiliates / liquidators / hedgers). -/
structure TenantActors where
  affiliates : List String
  liquidators : List String
  hedgers : List String
  deriving DecidableEq

/-- One snapshot row written by a reconciler during do_fetch_snapshot (the
reconcilers' internals are irrelevant here; what matters is whether any row is
written before/after the stale check). -/
structure SnapshotWrite where
  actorKind : String
  actor : String
  blockNumber : ℤ
  deriving DecidableEq

/-- Python truthiness of the `config.lastSnapshotBlock` value: None and 0 are falsy. -/
def pyTruthy : Option ℤ → Bool
  | none => false
  | some v => decide (v ≠ 0)

/-- The error raised by do_fetch_snapshot's stale-snapshot guard (the source raises
a bare formatted string; the spec names the condition StaleSnapshotError). -/
inductive FetchErr where
  | staleSnapshot (lastSnapshotBlock blockNumber : ℤ)
  deriving DecidableEq

/-- The snapshot rows written by the three reconciler loops of do_fetch_snapshot:
one affiliate snapshot per (affiliate, hedger), one per liquidator, one per hedger. -/
def reconcilerWrites (actors : TenantActors) (blockNumber : ℤ) : List SnapshotWrite :=
  (actors.affiliates.map fun a =>
      actors.hedgers.map fun h => SnapshotWrite.mk "affiliate" (a ++ "-" ++ h) blockNumber).flatten
    ++ (actors.liquidators.map fun l => SnapshotWrite.mk "liquidator" l blockNumber)
    ++ (actors.hedgers.map fun h => SnapshotWrite.mk "hedger" h blockNumber)

/-- Embedding of snapshot_job.do_fetch_snapshot.  If `lastSnapshotBlock` is truthy
and not smaller than the resolved block number it raises before any reconciler runs
(the duplicated `if` in the source re-reads a block it never uses, so only the raise
is modelled); otherwise the reconcilers run and `lastSnapshotBlock = blockNumber`
is committed. -/
def do_fetch_snapshot (actors : TenantActors) (cfg : RuntimeConfiguration)
    (blockNumber : ℤ) : Except FetchErr (RuntimeConfiguration × List SnapshotWrite) :=
  if pyTruthy cfg.lastSnapshotBlock && decide (blockNumber ≤ cfg.lastSnapshotBlock.getD 0) then
    .error (.staleSnapshot (cfg.lastSnapshotBlock.getD 0) blockNumber)
  else
    .ok ({ cfg with lastSnapshotBlock := some blockNumber }, reconcilerWrites actors blockNumber)

/-- The snapshot rows a do_fetch_snapshot invocation wrote: none when it raised. -/
def writtenRows : Except FetchErr (RuntimeConfiguration × List SnapshotWrite) → List SnapshotWrite
  | .ok (_, rows) => rows
  | .error _ => []

/-- Result of a sequence of pipeline runs (fetch_snapshot calls): the trace of
committed configurations, or failure (an unrecovered error or fuel exhaustion). -/
inductive PipeResult where
  | ok (trace : List Commit) (k : ℕ) (cfg : RuntimeConfiguration)
  | failed (trace : List Commit)
  deriving DecidableEq

/-- Prepend already-made commits to the trace of a pipeline result. -/
def appendTrace (tr : List Commit) : PipeResult → PipeResult
  | .ok tr₂ k cfg => .ok (tr ++ tr₂) k cfg
  | .failed tr₂ => .failed (tr ++ tr₂)

/-- A sequence of `runs` fetch_snapshot invocations: each runs sync_data and, when
snapshot generation is enabled, do_fetch_snapshot at the resolved block. -/
def pipeline (env : SyncEnv) (floor stp : ℤ) (actors : TenantActors) (getSnapshot : Bool)
    (fuel : ℕ) : ℕ → ℕ → RuntimeConfiguration → PipeResult
  | 0, k, cfg => .ok [] k cfg
  | runs + 1, k, cfg =>
      match sync_data env floor stp fuel k cfg with
      | .fuelOut tr => .failed tr
      | .ok tr k' cfg' target =>
          if getSnapshot then
            match do_fetch_snapshot actors cfg' target with
            | .error _ => .failed tr
            | .ok (cfg'', _) =>
                appendTrace (tr ++ [⟨.snapshotSuccess, cfg''⟩])
                  (pipeline env floor stp actors getSnapshot fuel runs k' cfg'')
          else
            appendTrace tr (pipeline env floor stp actors getSnapshot fuel runs k' cfg')

/-- The per-step property of the committed-configuration trace that formalizes the
cursor-store invariants: lastSyncBlock and lastSnapshotBlock never decrease from
one commit to the next, the lag strictly increases exactly at indexer-lag
recovery commits, a successful sync commit replaces it by
max (lag - step) floor (hence never increases it), a snapshot commit leaves it
unchanged, and it never drops below the configured floor. -/
def commitStepOK (floor stp : ℤ) (prev : RuntimeConfiguration) (c : Commit) : Prop :=
  prev.lastSyncBlock ≤ c.cfg.lastSyncBlock ∧
  (∀ v w, prev.lastSnapshotBlock = some v → c.cfg.lastSnapshotBlock = some w → v ≤ w) ∧
  (prev.snapshotBlockLag < c.cfg.snapshotBlockLag → c.kind = .lagRecovery) ∧
  (c.kind = .lagRecovery → prev.snapshotBlockLag < c.cfg.snapshotBlockLag) ∧
  (c.kind = .syncSuccess →
    c.cfg.snapshotBlockLag = max (prev.snapshotBlockLag - stp) floor ∧
    c.cfg.snapshotBlockLag ≤ prev.snapshotBlockLag) ∧
  (c.kind = .snapshotSuccess → c.cfg.snapshotBlockLag = prev.snapshotBlockLag) ∧
  floor ≤ c.cfg.snapshotBlockLag

/-- A chain of commits from a starting configuration to a final one, with every
adjacent pair related by R. -/
def ChainCfg (R : RuntimeConfiguration → Commit → Prop) :
    RuntimeConfiguration → List Commit → RuntimeConfiguration → Prop
  | start, [], final => start = final
  | start, c :: rest, final => R start c ∧ ChainCfg R c.cfg rest final

/-- Environment sanity: chain heads never decrease across reads. -/
def HeadMono (env : SyncEnv) : Prop := ∀ t t' : ℕ, t ≤ t' → env.head t ≤ env.head t'

/-- Environment sanity: within one pass the indexer never un-indexes blocks. -/
def IdxMonoWithin (env : SyncEnv) : Prop := ∀ k j : ℕ, env.idx k 0 ≤ env.idx k j

/-- Environment sanity: across passes the indexer head never decreases. -/
def IdxMonoAcross (env : SyncEnv) : Prop := ∀ k : ℕ, env.idx k 0 ≤ env.idx (k + 1) 0

/-- Environment sanity: the indexer has indexed a non-negative prefix. -/
def IdxNonneg (env : SyncEnv) : Prop := ∀ k j : ℕ, 0 ≤ env.idx k j

/-- The configuration invariant at the start of pass k: the lag is at least the
floor and at most the chain head about to be read, and the stored cursor does not
exceed the pass's resolved target nor the indexer head. -/
def SyncInv (env : SyncEnv) (floor : ℤ) (k : ℕ) (cfg : RuntimeConfiguration) : Prop :=
  floor ≤ cfg.snapshotBlockLag ∧
  cfg.snapshotBlockLag ≤ env.head (2 * k) ∧
  cfg.lastSyncBlock ≤ env.head (2 * k) - cfg.snapshotBlockLag ∧
  cfg.lastSyncBlock ≤ env.idx k 0

/-- A mirrored exchange income row (models.BinanceIncome): amount, timestamp,
income type, and the (tenant, hedger) scope columns. -/
structure BinanceIncome where
  amount : ℚ
  timestamp : ℤ
  type : String
  tenant : String
  hedger : String
  deriving DecidableEq

/-- The cached account metrics inside a StatsBotMessage's content, keyed in the
source by the quoted display names ("Total Maint. Margin", ...). -/
structure StatsContent where
  totalMaintMargin : ℚ
  totalMarginBalance : ℚ
  healthRatioValue : ℚ
  totalCrossUnPnl : ℚ
  availableBalance : ℚ
  totalInitialMargin : ℚ
  maxWithdrawAmount : ℚ
  deriving DecidableEq

/-- A cached historical-fallback record (models.StatsBotMessage). -/
structure StatsBotMessage where
  message_id : ℤ
  timestamp : ℤ
  content : StatsContent
  tenant : String
  deriving DecidableEq

/-- The exchange's futures-account summary as returned by the live REST call. -/
structure BinanceFuturesAccount where
  totalMaintMargin : ℚ
  totalMarginBalance : ℚ
  totalCrossUnPnl : ℚ
  availableBalance : ℚ
  totalInitialMargin : ℚ
  maxWithdrawAmount : ℚ
  deriving DecidableEq

/-- One open position as returned by futures_position_information. -/
structure BinancePosition where
  notional : ℚ
  symbol : String
  positionSide : String
  deriving DecidableEq

/-- The per-hedger configuration the reconciler reads. -/
structure HedgerCtx where
  name : String
  binance_deposit_diff : ℚ
  hedger_max_open_interest_ratio : ℚ
  deriving DecidableEq

/-- The resolved block a snapshot is computed at: number, wall-clock timestamp
(seconds), and whether it lies in the past (Block.is_for_past). -/
structure Block where
  number : ℤ
  timestamp : ℤ
  forPast : Bool
  deriving DecidableEq

/-- The external world seen by prepare_hedger_binance_snapshot: the income-row
mirror and fallback messages in the database (in database row order), the live
exchange account and positions, the per-symbol real-time funding rate, the volume
aggregator's result and the IGNORE_BINANCE_TRADE_VOLUME flag. -/
structure BinanceEnv where
  incomes : List BinanceIncome
  statMessages : List StatsBotMessage
  account : BinanceFuturesAccount
  positions : List BinancePosition
  fundingRate : String → ℚ
  tradeVolume : ℚ
  ignoreTradeVolume : Bool

/-- Sum of the amounts of the income rows matching a filter (SELECT coalesce(sum(amount), 0)). -/
def sumAmounts (rows : List BinanceIncome) (p : BinanceIncome → Bool) : ℚ :=
  ((rows.filter p).map BinanceIncome.amount).sum

/-- The TRANSFER sum query of the reconciler: rows of this tenant and hedger with
timestamp up to the block time. -/
def transferSum (rows : List BinanceIncome) (tenant hedgerName : String) (t : ℤ) : ℚ :=
  sumAmounts rows fun r =>
    decide (r.timestamp ≤ t) && decide (r.type = "TRANSFER") &&
      decide (r.tenant = tenant) && decide (r.hedger = hedgerName)

/-- The INTERNAL_TRANSFER sum query of the reconciler. -/
def internalTransferSum (rows : List BinanceIncome) (tenant hedgerName : String) (t : ℤ) : ℚ :=
  sumAmounts rows fun r =>
    decide (r.timestamp ≤ t) && decide (r.type = "INTERNAL_TRANSFER") &&
      decide (r.tenant = tenant) && decide (r.hedger = hedgerName)

/-- The paid-funding-fee query: negative-amount FUNDING_FEE rows of the tenant up
to block time.  The source filters by tenant only, not by hedger. -/
def fundingFeePaid (rows : List BinanceIncome) (tenant : String) (t : ℤ) : ℚ :=
  sumAmounts rows fun r =>
    decide (r.timestamp ≤ t) && decide (r.amount < 0) &&
      decide (r.type = "FUNDING_FEE") && decide (r.tenant = tenant)

/-- The received-funding-fee query: positive-amount FUNDING_FEE rows of the tenant
up to block time.  The source filters by tenant only, not by hedger. -/
def fundingFeeReceived (rows : List BinanceIncome) (tenant : String) (t : ℤ) : ℚ :=
  sumAmounts rows fun r =>
    decide (r.timestamp ≤ t) && decide (0 < r.amount) &&
      decide (r.type = "FUNDING_FEE") && decide (r.tenant = tenant)

/-- The fallback lookup of the reconciler: `session.scalar(select(StatsBotMessage)
.where(timestamp <= block.datetime(), timestamp >= block.datetime() - 3 minutes,
tenant == tenant))`.  The select carries no ORDER BY, and `session.scalar` returns
the first row of the result, so this is the first matching row in database order. -/
def findStatMessage (msgs : List StatsBotMessage) (tenant : String) (t : ℤ) :
    Option StatsBotMessage :=
  msgs.find? fun m =>
    decide (m.timestamp ≤ t) && decide (t - 180 ≤ m.timestamp) && decide (m.tenant = tenant)

/-- The account-metric fields assembled by the live/past branch of the reconciler. -/
structure AccountFields where
  binance_maintenance_margin : ℚ
  binance_total_balance : ℚ
  binance_account_health_ratio : ℚ
  binance_cross_upnl : ℚ
  binance_av_balance : ℚ
  binance_total_initial_margin : ℚ
  binance_max_withdraw_amount : ℚ
  max_open_interest : ℚ
  deriving DecidableEq

/-- The HedgerBinanceSnapshot row the reconciler builds and saves.
`binance_next_funding_fee` is only set on live blocks, hence Option. -/
structure HedgerBinanceSnapshot where
  binance_deposit : ℚ
  binance_maintenance_margin : ℚ
  binance_total_balance : ℚ
  binance_account_health_ratio : ℚ
  binance_cross_upnl : ℚ
  binance_av_balance : ℚ
  binance_total_initial_margin : ℚ
  binance_max_withdraw_amount : ℚ
  max_open_interest : ℚ
  binance_profit : ℚ
  binance_trade_volume : ℚ
  binance_paid_funding_fee : ℚ
  binance_received_funding_fee : ℚ
  binance_next_funding_fee : Option ℚ
  timestamp : ℤ
  name : String
  tenant : String
  block_number : ℤ
  deriving DecidableEq

/-- Errors the reconciler can raise: the missing-fallback exception ("StatBot
message not found for date ..."), and Decimal's DivisionByZero (the health-ratio
division is unguarded). -/
inductive SnapErr where
  | statBotMessageNotFound (tenant : String) (t : ℤ)
  | decimalDivisionByZero
  deriving DecidableEq

/-- The account metrics the live branch builds from the futures-account call
(hedger_binance_snapshot.py lines 72-81): each figure scaled to fixed point, the
health ratio derived from the scaled margin figures, and max_open_interest as the
configured ratio times the scaled max-withdraw amount. -/
def liveFields (account : BinanceFuturesAccount) (hedger_context : HedgerCtx) :
    AccountFields :=
  { binance_maintenance_margin := account.totalMaintMargin * 10 ^ 18,
    binance_total_balance := account.totalMarginBalance * 10 ^ 18,
    binance_account_health_ratio :=
      100 - account.totalMaintMargin * 10 ^ 18 / (account.totalMarginBalance * 10 ^ 18) * 100,
    binance_cross_upnl := account.totalCrossUnPnl * 10 ^ 18,
    binance_av_balance := account.availableBalance * 10 ^ 18,
    binance_total_initial_margin := account.totalInitialMargin * 10 ^ 18,
    binance_max_withdraw_amount := account.maxWithdrawAmount * 10 ^ 18,
    max_open_interest :=
      hedger_context.hedger_max_open_interest_ratio
        * (account.maxWithdrawAmount * 10 ^ 18) }

/-- The live branch of the reconciler (hedger_binance_snapshot.py lines 70-81):
the division in the health ratio is unguarded in the source, and Python Decimal
raises DivisionByZero on a zero scaled total margin balance, modelled as the
error value. -/
def liveBranch (account : BinanceFuturesAccount) (hedger_context : HedgerCtx) :
    Except SnapErr AccountFields :=
  if account.totalMarginBalance * 10 ^ 18 = 0 then
    .error SnapErr.decimalDivisionByZero
  else
    .ok (liveFields account hedger_context)

/-- The account metrics the past branch reads from a cached StatsBotMessage
(hedger_binance_snapshot.py lines 95-103). -/
def pastFields (stat_message : StatsBotMessage) (hedger_context : HedgerCtx) :
    AccountFields :=
  { binance_maintenance_margin := stat_message.content.totalMaintMargin,
    binance_total_balance := stat_message.content.totalMarginBalance,
    binance_account_health_ratio := stat_message.content.healthRatioValue,
    binance_cross_upnl := stat_message.content.totalCrossUnPnl,
    binance_av_balance := stat_message.content.availableBalance,
    binance_total_initial_margin := stat_message.content.totalInitialMargin,
    binance_max_withdraw_amount := stat_message.content.maxWithdrawAmount,
    max_open_interest :=
      hedger_context.hedger_max_open_interest_ratio
        * stat_message.content.maxWithdrawAmount }

/-- The past branch of the reconciler (hedger_binance_snapshot.py lines 82-103):
the fallback StatsBotMessage lookup; raises when no message is in the window, else
reads every account metric from the cached content. -/
def pastBranch (msgs : List StatsBotMessage) (tenant : String) (t : ℤ)
    (hedger_context : HedgerCtx) : Except SnapErr AccountFields :=
  match findStatMessage msgs tenant t with
  | none => .error (SnapErr.statBotMessageNotFound tenant t)
  | some stat_message => .ok (pastFields stat_message hedger_context)

/-- The pure computations of the reconciler around the account branch
(hedger_binance_snapshot.py lines 40-68 and 105-153): the deposit baseline (the
source takes `-(abs(total) * 10^18)` when the total is negative, else
`total * 10^18`, then adds binance_deposit_diff), profit, trade volume, the two
funding-fee sums, and on live blocks the next-funding-fee accumulation over the
non-zero-notional positions. -/
def assembleSnapshot (env : BinanceEnv) (tenant : String) (hedger_context : HedgerCtx)
    (block : Block) (acct : AccountFields) : HedgerBinanceSnapshot :=
  let transfer_sum := transferSum env.incomes tenant hedger_context.name block.timestamp
  let internal_transfer_sum :=
    internalTransferSum env.incomes tenant hedger_context.name block.timestamp
  let total_transfers := transfer_sum + internal_transfer_sum
  let is_negative : Bool := decide (total_transfers < 0)
  let binance_deposit : ℚ :=
    (if is_negative then -(|total_transfers| * 10 ^ 18) else total_transfers * 10 ^ 18)
      + hedger_context.binance_deposit_diff
  -- `binance_total_balance - (binance_deposit or Decimal(0))`: Python's `or`
  -- replaces a zero deposit by Decimal(0), the same value.
  let binance_profit := acct.binance_total_balance - binance_deposit
  let binance_trade_volume : ℚ :=
    if env.ignoreTradeVolume then 0 else env.tradeVolume * 10 ^ 18
  let binance_paid_funding_fee := fundingFeePaid env.incomes tenant block.timestamp
  let binance_received_funding_fee := fundingFeeReceived env.incomes tenant block.timestamp
  let binance_next_funding_fee : Option ℚ :=
    if !block.forPast then
      some ((env.positions.filter fun p => decide (p.notional ≠ 0)).foldl
        (fun acc pos => acc + (-1 * pos.notional * env.fundingRate pos.symbol) * 10 ^ 18) 0)
    else
      none
  { binance_deposit := binance_deposit
    binance_maintenance_margin := acct.binance_maintenance_margin
    binance_total_balance := acct.binance_total_balance
    binance_account_health_ratio := acct.binance_account_health_ratio
    binance_cross_upnl := acct.binance_cross_upnl
    binance_av_balance := acct.binance_av_balance
    binance_total_initial_margin := acct.binance_total_initial_margin
    binance_max_withdraw_amount := acct.binance_max_withdraw_amount
    max_open_interest := acct.max_open_interest
    binance_profit := binance_profit
    binance_trade_volume := binance_trade_volume
    binance_paid_funding_fee := binance_paid_funding_fee
    binance_received_funding_fee := binance_received_funding_fee
    binance_next_funding_fee := binance_next_funding_fee
    timestamp := block.timestamp
    name := hedger_context.name
    tenant := tenant
    block_number := block.number }

/-- Embedding of prepare_hedger_binance_snapshot (hedger_binance_snapshot.py):
the account-metric branch on `block.is_for_past()` (live REST call vs cached
fallback), whose error aborts the function before the final save, composed with
the pure aggregate computations of `assembleSnapshot`. -/
def prepare_hedger_binance_snapshot (env : BinanceEnv) (tenant : String)
    (hedger_context : HedgerCtx) (block : Block) : Except SnapErr HedgerBinanceSnapshot :=
  match
    (if !block.forPast then liveBranch env.account hedger_context
     else pastBranch env.statMessages tenant block.timestamp hedger_context)
  with
  | .error e => .error e
  | .ok acct => .ok (assembleSnapshot env tenant hedger_context block acct)

/-- The row a reconciler invocation saved: none when it raised (the save is the
last statement of the source function, so an error means nothing was written). -/
def savedRow : Except SnapErr HedgerBinanceSnapshot → Option HedgerBinanceSnapshot
  | .ok s => some s
  | .error _ => none

/-- Error of a rejected database insert. -/
inductive SaveError where
  | duplicateKey
  deriving DecidableEq

/-- Embedding of BaseModel.save (models.py lines 36-37): `session.add(self)` is a
plain INSERT at flush; the hedger_snapshot table's primary key is the `timestamp`
column, and inserting a row whose primary key already exists is rejected. -/
def saveRow (table : List HedgerBinanceSnapshot) (r : HedgerBinanceSnapshot) :
    Except SaveError (List HedgerBinanceSnapshot) :=
  if table.any fun x => decide (x.timestamp = r.timestamp) then
    .error .duplicateKey
  else
    .ok (table ++ [r])

/-- Embedding of BaseModel.upsert (models.py lines 21-34): INSERT .. ON CONFLICT
(primary key) DO UPDATE SET every column, i.e. a full-row in-place overwrite when
the key exists, an append otherwise. -/
def upsertRow (table : List HedgerBinanceSnapshot) (r : HedgerBinanceSnapshot) :
    List HedgerBinanceSnapshot :=
  if table.any fun x => decide (x.timestamp = r.timestamp) then
    table.map fun x => if x.timestamp = r.timestamp then r else x
  else
    table ++ [r]

/- Concrete inputs used by witnesses and counterexamples. -/

/-- Scenario-2 environment: chain head 1050 on every read, indexer at 1000. -/
def envS : SyncEnv := { head := fun _ => 1050, idx := fun _ _ => 1000 }

def cfgS : RuntimeConfiguration :=
  { lastSyncBlock := 900, lastSnapshotBlock := none, snapshotBlockLag := 20 }

def cfgS1 : RuntimeConfiguration :=
  { lastSyncBlock := 900, lastSnapshotBlock := none, snapshotBlockLag := 50 }

def cfgS2 : RuntimeConfiguration :=
  { lastSyncBlock := 1000, lastSnapshotBlock := none, snapshotBlockLag := 45 }

def envS9 : SyncEnv := { head := fun _ => 200, idx := fun _ _ => 190 }

def cfgS9 : RuntimeConfiguration :=
  { lastSyncBlock := 100, lastSnapshotBlock := none, snapshotBlockLag := 20 }

def actorsC3 : TenantActors := { affiliates := [], liquidators := ["liq"], hedgers := [] }

def cfgC3 : RuntimeConfiguration :=
  { lastSyncBlock := 0, lastSnapshotBlock := some 0, snapshotBlockLag := 0 }

def cfgC3b : RuntimeConfiguration :=
  { lastSyncBlock := 0, lastSnapshotBlock := some 500, snapshotBlockLag := 0 }

/-- A live account with a unit margin balance, for witness runs. -/
def acctW : BinanceFuturesAccount :=
  { totalMaintMargin := 0, totalMarginBalance := 1, totalCrossUnPnl := 0,
    availableBalance := 0, totalInitialMargin := 0, maxWithdrawAmount := 0 }

/-- Scenario-3 income rows: a TRANSFER of -150 and an INTERNAL_TRANSFER of 30. -/
def envC4 : BinanceEnv :=
  { incomes :=
      [{ amount := -150, timestamp := 10, type := "TRANSFER", tenant := "t", hedger := "h1" },
       { amount := 30, timestamp := 20, type := "INTERNAL_TRANSFER", tenant := "t",
         hedger := "h1" }],
    statMessages := [], account := acctW, positions := [], fundingRate := fun _ => 0,
    tradeVolume := 0, ignoreTradeVolume := true }

def hedgerC4 : HedgerCtx :=
  { name := "h1", binance_deposit_diff := 5, hedger_max_open_interest_ratio := 0 }

def blockC4 : Block := { number := 5, timestamp := 1000, forPast := false }

/-- Cached account content with a given total margin balance. -/
def contentW (tb : ℚ) : StatsContent :=
  { totalMaintMargin := 0, totalMarginBalance := tb, healthRatioValue := 100,
    totalCrossUnPnl := 0, availableBalance := 0, totalInitialMargin := 0,
    maxWithdrawAmount := 0 }

/-- An older fallback message inside the 3-minute window before t = 1000. -/
def mOld : StatsBotMessage :=
  { message_id := 1, timestamp := 880, content := contentW 1, tenant := "t" }

/-- A more recent fallback message, also inside the window. -/
def mNew : StatsBotMessage :=
  { message_id := 2, timestamp := 940, content := contentW 2, tenant := "t" }

def blockC5 : Block := { number := 7, timestamp := 1000, forPast := true }

def envC5 : BinanceEnv :=
  { incomes := [], statMessages := [mOld, mNew], account := acctW, positions := [],
    fundingRate := fun _ => 0, tradeVolume := 0, ignoreTradeVolume := true }

def hedgerC5 : HedgerCtx :=
  { name := "h1", binance_deposit_diff := 0, hedger_max_open_interest_ratio := 0 }

/-- An environment with no fallback messages at all. -/
def envC5e : BinanceEnv :=
  { incomes := [], statMessages := [], account := acctW, positions := [],
    fundingRate := fun _ => 0, tradeVolume := 0, ignoreTradeVolume := true }

/-- A live account with margin balance 4 and maintenance margin 1. -/
def acctW2 : BinanceFuturesAccount :=
  { totalMaintMargin := 1, totalMarginBalance := 4, totalCrossUnPnl := 0,
    availableBalance := 0, totalInitialMargin := 0, maxWithdrawAmount := 0 }

/-- A live account with zero margin balance. -/
def acctW0 : BinanceFuturesAccount :=
  { totalMaintMargin := 1, totalMarginBalance := 0, totalCrossUnPnl := 0,
    availableBalance := 0, totalInitialMargin := 0, maxWithdrawAmount := 0 }

/-- A live environment with one open position (notional 2) and one zero-notional
position, funding rate 1 on every symbol. -/
def envC6L : BinanceEnv :=
  { incomes := [], statMessages := [],
    account := acctW2,
    positions :=
      [{ notional := 2, symbol := "BTCUSDT", positionSide := "LONG" },
       { notional := 0, symbol := "ETHUSDT", positionSide := "SHORT" }],
    fundingRate := fun _ => 1, tradeVolume := 0, ignoreTradeVolume := true }

/-- A live environment whose account reports a zero total margin balance. -/
def envC10Z : BinanceEnv :=
  { incomes := [], statMessages := [], account := acctW0, positions := [],
    fundingRate := fun _ => 0, tradeVolume := 0, ignoreTradeVolume := true }

/-- A FUNDING_FEE row of the same tenant that belongs to a different hedger. -/
def rowFF : BinanceIncome :=
  { amount := -7, timestamp := 10, type := "FUNDING_FEE", tenant := "t", hedger := "other" }

def envC7 : BinanceEnv :=
  { incomes := [rowFF], statMessages := [], account := acctW, positions := [],
    fundingRate := fun _ => 0, tradeVolume := 0, ignoreTradeVolume := true }

/-- The hedger-scoped funding-fee sum the claim describes: negative-amount
FUNDING_FEE rows filtered by tenant AND hedger.  Stated from the claim's words,
for comparison with the source's fundingFeePaid (which has no hedger filter). -/
def fundingFeePaidScoped (rows : List BinanceIncome) (tenant hedgerName : String)
    (t : ℤ) : ℚ :=
  sumAmounts rows fun r =>
    decide (r.timestamp ≤ t) && decide (r.amount < 0) &&
      decide (r.type = "FUNDING_FEE") && decide (r.tenant = tenant) &&
      decide (r.hedger = hedgerName)

/-- An all-zero snapshot row at timestamp 100 for the save/upsert model. -/
def rowC8 : HedgerBinanceSnapshot :=
  { binance_deposit := 0, binance_maintenance_margin := 0, binance_total_balance := 0,
    binance_account_health_ratio := 0, binance_cross_upnl := 0, binance_av_balance := 0,
    binance_total_initial_margin := 0, binance_max_withdraw_amount := 0,
    max_open_interest := 0, binance_profit := 0, binance_trade_volume := 0,
    binance_paid_funding_fee := 0, binance_received_funding_fee := 0,
    binance_next_funding_fee := none, timestamp := 100, name := "h1", tenant := "t",
    block_number := 5 }

/-- The re-run row for the same key (same tenant, name and timestamp). -/
def rowC8b : HedgerBinanceSnapshot := { rowC8 with binance_profit := 1 }

/-- A steady environment for the pipeline witness: head 100, indexer at 95. -/
def envW : SyncEnv := { head := fun _ => 100, idx := fun _ _ => 95 }

def cfgW : RuntimeConfiguration :=
  { lastSyncBlock := 80, lastSnapshotBlock := none, snapshotBlockLag := 15 }

def cfgW1 : RuntimeConfiguration :=
  { lastSyncBlock := 85, lastSnapshotBlock := none, snapshotBlockLag := 10 }

def cfgW2 : RuntimeConfiguration :=
  { lastSyncBlock := 85, lastSnapshotBlock := some 85, snapshotBlockLag := 10 }

/-- The commit trace of one successful pipeline run in envW. -/
def trW : List Commit := [⟨.syncSuccess, cfgW1⟩, ⟨.snapshotSuccess, cfgW2⟩]

/- ------------------------------------------------------------------ -/
/- Theorems                                                           -/
/- ------------------------------------------------------------------ -/

/-- Helper: on a past block with an in-window fallback message, the reconciler
returns the snapshot assembled from that message's cached fields. -/
lemma prepare_past_some (env : BinanceEnv) (tenant : String) (hctx : HedgerCtx)
    (block : Block) (m : StatsBotMessage) (hp : block.forPast = true)
    (hfind : findStatMessage env.statMessages tenant block.timestamp = some m) :
    prepare_hedger_binance_snapshot env tenant hctx block =
      .ok (assembleSnapshot env tenant hctx block (pastFields m hctx)) := by
  simp [prepare_hedger_binance_snapshot, pastBranch, hp, hfind]

/-- Helper: on a past block with no in-window fallback message, the reconciler
raises the missing-fallback error. -/
lemma prepare_past_none (env : BinanceEnv) (tenant : String) (hctx : HedgerCtx)
    (block : Block) (hp : block.forPast = true)
    (hfind : findStatMessage env.statMessages tenant block.timestamp = none) :
    prepare_hedger_binance_snapshot env tenant hctx block =
      .error (SnapErr.statBotMessageNotFound tenant block.timestamp) := by
  simp [prepare_hedger_binance_snapshot, pastBranch, hp, hfind]

/-- Helper: on a live block with a non-zero margin balance, the reconciler returns
the snapshot assembled from the scaled live account fields. -/
lemma prepare_live_ok (env : BinanceEnv) (tenant : String) (hctx : HedgerCtx)
    (block : Block) (hlive : block.forPast = false)
    (hne : env.account.totalMarginBalance ≠ 0) :
    prepare_hedger_binance_snapshot env tenant hctx block =
      .ok (assembleSnapshot env tenant hctx block (liveFields env.account hctx)) := by
  have hne' : env.account.totalMarginBalance * 10 ^ 18 ≠ 0 :=
    mul_ne_zero hne (by norm_num)
  simp [prepare_hedger_binance_snapshot, liveBranch, hlive, hne']

/-- Helper: on a live block with a zero margin balance, the reconciler fails at
the unguarded health-ratio division. -/
lemma prepare_live_zero (env : BinanceEnv) (tenant : String) (hctx : HedgerCtx)
    (block : Block) (hlive : block.forPast = false)
    (hz : env.account.totalMarginBalance = 0) :
    prepare_hedger_binance_snapshot env tenant hctx block =
      .error SnapErr.decimalDivisionByZero := by
  simp [prepare_hedger_binance_snapshot, liveBranch, hlive, hz]

/-- Helper: any snapshot the reconciler returns is assembled from some account
fields by the pure tail of the function. -/
lemma prepare_ok_shape (env : BinanceEnv) (tenant : String) (hctx : HedgerCtx)
    (block : Block) (s : HedgerBinanceSnapshot)
    (h : prepare_hedger_binance_snapshot env tenant hctx block = .ok s) :
    ∃ acct, s = assembleSnapshot env tenant hctx block acct := by
  unfold prepare_hedger_binance_snapshot at h
  rcases hB : (if !block.forPast then liveBranch env.account hctx
      else pastBranch env.statMessages tenant block.timestamp hctx) with e | acct <;>
    rw [hB] at h
  · simp at h
  · simp only [Except.ok.injEq] at h
    exact ⟨acct, h.symm⟩

/-- C4: the deposit baseline equals the signed sum of the tenant's and hedger's
mirrored TRANSFER plus INTERNAL_TRANSFER income rows with timestamp up to the
block time, scaled by 10^18 preserving sign, plus the hedger's configured
binance_deposit_diff. -/
theorem c4_deposit_baseline (env : BinanceEnv) (tenant : String) (hctx : HedgerCtx)
    (block : Block) (s : HedgerBinanceSnapshot)
    (h : prepare_hedger_binance_snapshot env tenant hctx block = .ok s) :
    s.binance_deposit =
      (transferSum env.incomes tenant hctx.name block.timestamp
        + internalTransferSum env.incomes tenant hctx.name block.timestamp) * 10 ^ 18
        + hctx.binance_deposit_diff := by
  obtain ⟨acct, rfl⟩ := prepare_ok_shape env tenant hctx block s h
  simp only [assembleSnapshot]
  set x := transferSum env.incomes tenant hctx.name block.timestamp
    + internalTransferSum env.incomes tenant hctx.name block.timestamp with hx
  split_ifs with hneg
  · have hlt : x < 0 := by simpa using hneg
    rw [abs_of_neg hlt]; ring
  · rfl

/-- Witness for C4 at Scenario 3: transfer sum -150, internal transfer sum 30 and
binance_deposit_diff 5 give binance_deposit = -(120 * 10^18) + 5. -/
theorem c4_witness :
    (prepare_hedger_binance_snapshot envC4 "t" hedgerC4 blockC4).map
      HedgerBinanceSnapshot.binance_deposit = .ok (-(120 * 10 ^ 18) + 5) := by
  have h : prepare_hedger_binance_snapshot envC4 "t" hedgerC4 blockC4 =
      .ok (assembleSnapshot envC4 "t" hedgerC4 blockC4 (liveFields envC4.account hedgerC4)) :=
    prepare_live_ok envC4 "t" hedgerC4 blockC4 rfl (by decide)
  rw [h]
  have hd := c4_deposit_baseline envC4 "t" hedgerC4 blockC4 _ h
  simp only [Except.map, Except.ok.injEq]
  rw [hd]
  have h1 : transferSum envC4.incomes "t" hedgerC4.name blockC4.timestamp = -150 := by
    norm_num [transferSum, sumAmounts, envC4, hedgerC4, blockC4, List.filter,
      show decide ("INTERNAL_TRANSFER" = "TRANSFER") = false from by decide]
  have h2 : internalTransferSum envC4.incomes "t" hedgerC4.name blockC4.timestamp = 30 := by
    norm_num [internalTransferSum, sumAmounts, envC4, hedgerC4, blockC4, List.filter,
      show decide ("TRANSFER" = "INTERNAL_TRANSFER") = false from by decide]
  rw [h1, h2]
  norm_num [hedgerC4]

/-- C1: when a synchronizer call of a sync pass raises the error whose message
contains "only indexed up to block number N", sync_data re-reads the chain head,
sets snapshotBlockLag to that fresh head minus N, commits the change (the
lagRecovery commit), and restarts the entire seven-entity sync sequence from the
top with the new target (the restarted call reads the head again and targets
head minus the new lag over the full syncOrder list). -/
theorem c1_indexer_lag_recovery (env : SyncEnv) (floor stp : ℤ) (fuel k : ℕ)
    (cfg : RuntimeConfiguration) (n : ℤ)
    (h : runEntitySyncs (env.idx k) (env.head (2 * k) - cfg.snapshotBlockLag) syncOrder 0
        = some n) :
    sync_data env floor stp (fuel + 1) k cfg =
      consCommit ⟨.lagRecovery, { cfg with snapshotBlockLag := env.head (2 * k + 1) - n }⟩
        (sync_data env floor stp fuel (k + 1)
          { cfg with snapshotBlockLag := env.head (2 * k + 1) - n }) := by
  simp only [sync_data, h]

/-- Witness for C1 at Scenario 2: applying the theorem with head 1050, lag 20 and
N = 1000 yields the lag-recovery commit with snapshotBlockLag = 50 and the full
restart, which then succeeds at target head - 50 = 1000. -/
theorem c1_witness :
    (sync_data envS 10 5 2 0 cfgS =
      consCommit ⟨.lagRecovery, { cfgS with snapshotBlockLag := envS.head 1 - 1000 }⟩
        (sync_data envS 10 5 1 1 { cfgS with snapshotBlockLag := envS.head 1 - 1000 })) ∧
    ({ cfgS with snapshotBlockLag := envS.head 1 - 1000 } : RuntimeConfiguration) = cfgS1 ∧
    cfgS1.snapshotBlockLag = 50 ∧
    sync_data envS 10 5 2 0 cfgS =
      .ok [⟨.lagRecovery, cfgS1⟩, ⟨.syncSuccess, cfgS2⟩] 2 cfgS2 1000 ∧
    (1000 : ℤ) = envS.head 2 - 50 :=
  ⟨c1_indexer_lag_recovery envS 10 5 1 0 cfgS 1000 (by decide),
   by decide, by decide, by decide, by decide⟩

/-- C9: on a fully successful sync pass, sync_data commits
lastSyncBlock = target (the chain head read for the pass minus the lag used) and
replaces snapshotBlockLag by max (snapshotBlockLag - step) floor: the lag falls by
exactly one step while at least floor + step, lands on the floor otherwise, and is
never below the floor. -/
theorem c9_success_commit (env : SyncEnv) (floor stp : ℤ) (fuel k : ℕ)
    (cfg : RuntimeConfiguration)
    (h : runEntitySyncs (env.idx k) (env.head (2 * k) - cfg.snapshotBlockLag) syncOrder 0
        = none) :
    sync_data env floor stp (fuel + 1) k cfg =
      .ok [⟨.syncSuccess,
            { cfg with
                lastSyncBlock := env.head (2 * k) - cfg.snapshotBlockLag,
                snapshotBlockLag := max (cfg.snapshotBlockLag - stp) floor }⟩]
        (k + 1)
        { cfg with
            lastSyncBlock := env.head (2 * k) - cfg.snapshotBlockLag,
            snapshotBlockLag := max (cfg.snapshotBlockLag - stp) floor }
        (env.head (2 * k) - cfg.snapshotBlockLag) ∧
    floor ≤ max (cfg.snapshotBlockLag - stp) floor ∧
    (floor + stp ≤ cfg.snapshotBlockLag →
      max (cfg.snapshotBlockLag - stp) floor = cfg.snapshotBlockLag - stp) ∧
    (cfg.snapshotBlockLag ≤ floor + stp →
      max (cfg.snapshotBlockLag - stp) floor = floor) := by
  refine ⟨?_, le_max_right _ _, ?_, ?_⟩
  · simp only [sync_data, h]
  · intro hle; exact max_eq_left (by omega)
  · intro hle; exact max_eq_right (by omega)

/-- Witness for C9: head 200, lag 20, floor 10, step 5: the pass succeeds at
target 180, lastSyncBlock becomes 180 and the lag decreases by one step to 15. -/
theorem c9_witness :
    sync_data envS9 10 5 1 0 cfgS9 =
      .ok [⟨.syncSuccess,
            { cfgS9 with
                lastSyncBlock := envS9.head 0 - cfgS9.snapshotBlockLag,
                snapshotBlockLag := max (cfgS9.snapshotBlockLag - 5) 10 }⟩]
        1
        { cfgS9 with
            lastSyncBlock := envS9.head 0 - cfgS9.snapshotBlockLag,
            snapshotBlockLag := max (cfgS9.snapshotBlockLag - 5) 10 }
        (envS9.head 0 - cfgS9.snapshotBlockLag) ∧
    envS9.head 0 - cfgS9.snapshotBlockLag = 180 ∧
    max (cfgS9.snapshotBlockLag - 5) 10 = 15 :=
  ⟨(c9_success_commit envS9 10 5 0 0 cfgS9 (by decide)).1, by decide, by decide⟩

/-- C3 counterexample: the stale-snapshot guard is
`if config.lastSnapshotBlock and config.lastSnapshotBlock >= snapshot_block.number`,
so with lastSnapshotBlock = 0 (falsy in Python) and resolved block number 0 the
claimed precondition lastSnapshotBlock ≥ number holds, yet no error is raised: the
reconcilers execute and a snapshot row is written. -/
theorem c3_counterexample :
    cfgC3.lastSnapshotBlock = some 0 ∧ (0 : ℤ) ≤ 0 ∧
    do_fetch_snapshot actorsC3 cfgC3 0 =
      .ok ({ cfgC3 with lastSnapshotBlock := some 0 },
           [{ actorKind := "liquidator", actor := "liq", blockNumber := 0 }]) ∧
    writtenRows (do_fetch_snapshot actorsC3 cfgC3 0) ≠ [] := by
  exact ⟨rfl, le_refl _, rfl, by decide⟩

/-- C3 (amended): whenever the tenant configuration's lastSnapshotBlock is set to
a nonzero value v with v ≥ resolvedBlock.number, do_fetch_snapshot raises the
stale-snapshot error before any reconciler executes and no snapshot row is written
in that run.  (The source guards the check with Python truthiness, so an unset or
zero lastSnapshotBlock skips it; for any positive resolved block number the
amendment coincides with the original claim.) -/
theorem c3_stale_guard (actors : TenantActors) (cfg : RuntimeConfiguration)
    (blockNumber v : ℤ) (hv : cfg.lastSnapshotBlock = some v) (hnz : v ≠ 0)
    (hge : blockNumber ≤ v) :
    do_fetch_snapshot actors cfg blockNumber =
      .error (.staleSnapshot v blockNumber) ∧
    writtenRows (do_fetch_snapshot actors cfg blockNumber) = [] := by
  have hcond :
      (pyTruthy cfg.lastSnapshotBlock
        && decide (blockNumber ≤ cfg.lastSnapshotBlock.getD 0)) = true := by
    rw [hv]; simp [pyTruthy, hnz, hge]
  constructor
  · rw [do_fetch_snapshot, if_pos hcond, hv]; rfl
  · rw [do_fetch_snapshot, if_pos hcond]; rfl

/-- Witness for the amended C3 at Scenario 5: lastSnapshotBlock = 500 and resolved
block 500 raise the stale error before any reconciler runs, and no row is written. -/
theorem c3_witness :
    do_fetch_snapshot actorsC3 cfgC3b 500 = .error (.staleSnapshot 500 500) ∧
    writtenRows (do_fetch_snapshot actorsC3 cfgC3b 500) = [] :=
  c3_stale_guard actorsC3 cfgC3b 500 500 rfl (by decide) (by decide)

/-- C5 counterexample: the fallback query has no ORDER BY and session.scalar
returns the first result row, so with two messages in the 3-minute window, the
older one first in database order, the reconciler reads the older message, not the
most recent one: the snapshot's total balance is mOld's 1 although the most recent
in-window message mNew carries 2. -/
theorem c5_counterexample :
    blockC5.forPast = true ∧
    mOld.timestamp < mNew.timestamp ∧
    (mNew.timestamp ≤ blockC5.timestamp ∧ blockC5.timestamp - 180 ≤ mNew.timestamp ∧
      mNew.tenant = "t") ∧
    (prepare_hedger_binance_snapshot envC5 "t" hedgerC5 blockC5).map
      HedgerBinanceSnapshot.binance_total_balance = .ok mOld.content.totalMarginBalance ∧
    mOld.content.totalMarginBalance ≠ mNew.content.totalMarginBalance := by
  refine ⟨rfl, by decide, ⟨by decide, by decide, rfl⟩, ?_, ?_⟩
  · rw [prepare_past_some envC5 "t" hedgerC5 blockC5 mOld rfl rfl]
    rfl
  · norm_num [mOld, mNew, contentW]

/-- C5 (amended): on a past-block reconciliation, if no StatsBotMessage of the
tenant lies in the 3-minute window before block.time, the reconciler raises the
missing-fallback error and no HedgerSnapshot row is written; if matching records
exist, the first matching record in database order is used (the query carries no
ordering, so it is not necessarily the most recent one). -/
theorem c5_missing_fallback (env : BinanceEnv) (tenant : String) (hctx : HedgerCtx)
    (block : Block) (hp : block.forPast = true) :
    ((∀ m ∈ env.statMessages,
        ¬(m.timestamp ≤ block.timestamp ∧ block.timestamp - 180 ≤ m.timestamp ∧
          m.tenant = tenant)) →
      prepare_hedger_binance_snapshot env tenant hctx block =
        .error (SnapErr.statBotMessageNotFound tenant block.timestamp) ∧
      savedRow (prepare_hedger_binance_snapshot env tenant hctx block) = none) ∧
    (∀ m, findStatMessage env.statMessages tenant block.timestamp = some m →
      ∃ s, prepare_hedger_binance_snapshot env tenant hctx block = .ok s ∧
        s.binance_total_balance = m.content.totalMarginBalance ∧
        s.binance_account_health_ratio = m.content.healthRatioValue) := by
  constructor
  · intro hnone
    have hfind : findStatMessage env.statMessages tenant block.timestamp = none := by
      unfold findStatMessage
      rw [List.find?_eq_none]
      intro m hm
      have hP := hnone m hm
      simp only [Bool.and_eq_true, decide_eq_true_eq]
      tauto
    have he := prepare_past_none env tenant hctx block hp hfind
    exact ⟨he, by rw [he]; rfl⟩
  · intro m hfind
    exact ⟨_, prepare_past_some env tenant hctx block m hp hfind, rfl, rfl⟩

/-- Witness for the amended C5: with no StatsBotMessage the reconciler raises and
writes nothing; with mOld found by the query, its cached figures are used. -/
theorem c5_witness :
    (prepare_hedger_binance_snapshot envC5e "t" hedgerC5 blockC5 =
        .error (SnapErr.statBotMessageNotFound "t" blockC5.timestamp) ∧
      savedRow (prepare_hedger_binance_snapshot envC5e "t" hedgerC5 blockC5) = none) ∧
    (∃ s, prepare_hedger_binance_snapshot envC5 "t" hedgerC5 blockC5 = .ok s ∧
      s.binance_total_balance = mOld.content.totalMarginBalance ∧
      s.binance_account_health_ratio = mOld.content.healthRatioValue) :=
  ⟨(c5_missing_fallback envC5e "t" hedgerC5 blockC5 rfl).1 (by intro m hm; cases hm),
   (c5_missing_fallback envC5 "t" hedgerC5 blockC5 rfl).2 mOld rfl⟩

/-- Helper: the reconciler's next-funding-fee for-loop accumulation is the sum of
the mapped terms. -/
lemma foldl_add_map (f : BinancePosition → ℚ) :
    ∀ (l : List BinancePosition) (a : ℚ),
      l.foldl (fun acc p => acc + f p) a = a + (l.map f).sum := by
  intro l
  induction l with
  | nil => intro a; simp
  | cons p rest ih => intro a; simp only [List.foldl_cons, List.map_cons, List.sum_cons, ih]; ring

/-- C6: on a past block with an in-window fallback record, every account metric of
the snapshot comes from the record's cached content and next_funding_fee is not
set; on a live block (with a non-zero reported margin balance, without which the
reconciler fails instead, see C10) the metrics come from the live account call,
health_ratio = 100 - (maintenance_margin / total_balance) * 100, and
next_funding_fee is the sum over the non-zero-notional open positions of
-notional * funding_rate scaled by 10^18. -/
theorem c6_branch_correctness (env : BinanceEnv) (tenant : String) (hctx : HedgerCtx)
    (block : Block) :
    (∀ m, block.forPast = true →
      findStatMessage env.statMessages tenant block.timestamp = some m →
      ∃ s, prepare_hedger_binance_snapshot env tenant hctx block = .ok s ∧
        s.binance_maintenance_margin = m.content.totalMaintMargin ∧
        s.binance_total_balance = m.content.totalMarginBalance ∧
        s.binance_account_health_ratio = m.content.healthRatioValue ∧
        s.binance_cross_upnl = m.content.totalCrossUnPnl ∧
        s.binance_av_balance = m.content.availableBalance ∧
        s.binance_total_initial_margin = m.content.totalInitialMargin ∧
        s.binance_max_withdraw_amount = m.content.maxWithdrawAmount ∧
        s.max_open_interest =
          hctx.hedger_max_open_interest_ratio * m.content.maxWithdrawAmount ∧
        s.binance_next_funding_fee = none) ∧
    (block.forPast = false → env.account.totalMarginBalance ≠ 0 →
      ∃ s, prepare_hedger_binance_snapshot env tenant hctx block = .ok s ∧
        s.binance_maintenance_margin = env.account.totalMaintMargin * 10 ^ 18 ∧
        s.binance_total_balance = env.account.totalMarginBalance * 10 ^ 18 ∧
        s.binance_account_health_ratio =
          100 - s.binance_maintenance_margin / s.binance_total_balance * 100 ∧
        s.binance_cross_upnl = env.account.totalCrossUnPnl * 10 ^ 18 ∧
        s.binance_av_balance = env.account.availableBalance * 10 ^ 18 ∧
        s.binance_total_initial_margin = env.account.totalInitialMargin * 10 ^ 18 ∧
        s.binance_max_withdraw_amount = env.account.maxWithdrawAmount * 10 ^ 18 ∧
        s.max_open_interest =
          hctx.hedger_max_open_interest_ratio * (env.account.maxWithdrawAmount * 10 ^ 18) ∧
        s.binance_next_funding_fee =
          some (((env.positions.filter fun p => decide (p.notional ≠ 0)).map
            fun p => -(p.notional * env.fundingRate p.symbol) * 10 ^ 18).sum)) := by
  constructor
  · intro m hp hfind
    refine ⟨_, prepare_past_some env tenant hctx block m hp hfind,
      rfl, rfl, rfl, rfl, rfl, rfl, rfl, rfl, ?_⟩
    simp [assembleSnapshot, hp]
  · intro hlive hne
    refine ⟨_, prepare_live_ok env tenant hctx block hlive hne,
      rfl, rfl, rfl, rfl, rfl, rfl, rfl, rfl, ?_⟩
    show (assembleSnapshot env tenant hctx block
        (liveFields env.account hctx)).binance_next_funding_fee = _
    simp only [assembleSnapshot, hlive, Bool.not_false, if_true, Option.some.injEq]
    rw [foldl_add_map (fun pos => -1 * pos.notional * env.fundingRate pos.symbol * 10 ^ 18)]
    rw [zero_add]
    apply congrArg List.sum
    apply List.map_congr_left
    intro p _
    ring

/-- Witness for C6: the past branch with mOld found uses exactly mOld's cached
fields and sets no next funding fee; the live branch with margin balance 4 uses
the scaled live account and accumulates -2 * 1 * 10^18 over the single
non-zero-notional position. -/
theorem c6_witness :
    (∃ s, prepare_hedger_binance_snapshot envC5 "t" hedgerC5 blockC5 = .ok s ∧
      s.binance_total_balance = mOld.content.totalMarginBalance ∧
      s.binance_next_funding_fee = none) ∧
    (∃ s, prepare_hedger_binance_snapshot envC6L "t" hedgerC5 blockC4 = .ok s ∧
      s.binance_total_balance = (4 : ℚ) * 10 ^ 18 ∧
      s.binance_next_funding_fee = some (-(2 * 1) * 10 ^ 18)) := by
  constructor
  · obtain ⟨s, hs, h1, h2, h3, h4, h5, h6, h7, h8, h9⟩ :=
      (c6_branch_correctness envC5 "t" hedgerC5 blockC5).1 mOld rfl rfl
    exact ⟨s, hs, h2, h9⟩
  · obtain ⟨s, hs, h1, h2, h3, h4, h5, h6, h7, h8, h9⟩ :=
      (c6_branch_correctness envC6L "t" hedgerC5 blockC4).2 rfl (by norm_num [envC6L, acctW2])
    refine ⟨s, hs, by rw [h2]; norm_num [envC6L, acctW2], ?_⟩
    rw [h9]
    have hfil : (envC6L.positions.filter fun p => decide (p.notional ≠ 0)) =
        [{ notional := 2, symbol := "BTCUSDT", positionSide := "LONG" }] := by
      simp [envC6L, List.filter,
        show decide ((2 : ℚ) ≠ 0) = true by simp,
        show decide ((0 : ℚ) ≠ 0) = false by simp]
    rw [hfil]
    norm_num [envC6L]

/-- C10: the live-branch health-ratio division is unguarded: whenever the exchange
reports a non-zero totalMarginBalance the computation is well-defined and a
snapshot is produced with the dividing formula, but a zero totalMarginBalance
makes the reconciler fail at that division (Decimal DivisionByZero) and no
snapshot row is written. -/
theorem c10_unguarded_health_division (env : BinanceEnv) (tenant : String)
    (hctx : HedgerCtx) (block : Block) (hlive : block.forPast = false) :
    (env.account.totalMarginBalance ≠ 0 →
      ∃ s, prepare_hedger_binance_snapshot env tenant hctx block = .ok s ∧
        s.binance_account_health_ratio =
          100 - env.account.totalMaintMargin * 10 ^ 18
            / (env.account.totalMarginBalance * 10 ^ 18) * 100) ∧
    (env.account.totalMarginBalance = 0 →
      prepare_hedger_binance_snapshot env tenant hctx block =
        .error SnapErr.decimalDivisionByZero ∧
      savedRow (prepare_hedger_binance_snapshot env tenant hctx block) = none) := by
  constructor
  · intro hne
    exact ⟨_, prepare_live_ok env tenant hctx block hlive hne, rfl⟩
  · intro hz
    have he := prepare_live_zero env tenant hctx block hlive hz
    exact ⟨he, by rw [he]; rfl⟩

/-- Witness for C10: margin balance 4 and maintenance margin 1 produce a snapshot
with health ratio 75; a zero margin balance makes the reconciler fail at the
division, and nothing is saved. -/
theorem c10_witness :
    (∃ s, prepare_hedger_binance_snapshot envC6L "t" hedgerC5 blockC4 = .ok s ∧
      s.binance_account_health_ratio = 75) ∧
    prepare_hedger_binance_snapshot envC10Z "t" hedgerC5 blockC4 =
      .error SnapErr.decimalDivisionByZero ∧
    savedRow (prepare_hedger_binance_snapshot envC10Z "t" hedgerC5 blockC4) = none := by
  refine ⟨?_, ?_⟩
  · obtain ⟨s, hs, hh⟩ :=
      (c10_unguarded_health_division envC6L "t" hedgerC5 blockC4 rfl).1
        (by norm_num [envC6L, acctW2])
    exact ⟨s, hs, by rw [hh]; norm_num [envC6L, acctW2]⟩
  · exact (c10_unguarded_health_division envC10Z "t" hedgerC5 blockC4 rfl).2 rfl

/-- Helper: a filtered amount sum is unchanged by rewriting the hedger column when
the filter never reads it. -/
lemma sumAmounts_map_hedger (p : BinanceIncome → Bool) (g : BinanceIncome → String)
    (hp : ∀ r, p { r with hedger := g r } = p r) :
    ∀ rows : List BinanceIncome,
      sumAmounts (rows.map fun r => { r with hedger := g r }) p = sumAmounts rows p := by
  intro rows
  induction rows with
  | nil => rfl
  | cons r rest ih =>
      unfold sumAmounts at ih ⊢
      rw [List.map_cons, List.filter_cons, List.filter_cons, hp r]
      cases hpr : p r
      · simpa using ih
      · simpa using ih

/-- C7 counterexample: the funding-fee queries filter by tenant but not by hedger,
so a FUNDING_FEE row of the same tenant that belongs to hedger "other" is included
in hedger "h1"'s snapshot: the snapshot's paid funding fee is -7 although the
hedger-scoped sum the claim describes is 0. -/
theorem c7_counterexample :
    rowFF.hedger = "other" ∧ hedgerC5.name = "h1" ∧ rowFF.tenant = "t" ∧
    (prepare_hedger_binance_snapshot envC7 "t" hedgerC5 blockC4).map
      HedgerBinanceSnapshot.binance_paid_funding_fee = .ok (-7) ∧
    fundingFeePaidScoped envC7.incomes "t" "h1" blockC4.timestamp = 0 ∧
    (-7 : ℚ) ≠ 0 := by
  refine ⟨rfl, rfl, rfl, ?_, ?_, by norm_num⟩
  · rw [prepare_live_ok envC7 "t" hedgerC5 blockC4 rfl (by norm_num [envC7, acctW])]
    simp only [Except.map, Except.ok.injEq]
    show fundingFeePaid envC7.incomes "t" blockC4.timestamp = -7
    norm_num [fundingFeePaid, sumAmounts, envC7, rowFF, blockC4, List.filter]
  · norm_num [fundingFeePaidScoped, sumAmounts, envC7, rowFF, List.filter,
      show decide ("other" = "h1") = false from by decide]

/-- C7 (amended): the snapshot's paid and received funding fees are the sums of
the negative-amount and positive-amount FUNDING_FEE mirror rows of the tenant
(across all hedgers) with timestamp up to block.time; they do not depend on the
rows' hedger column at all. -/
theorem c7_funding_fee_sums (env : BinanceEnv) (tenant : String) (hctx : HedgerCtx)
    (block : Block) (s : HedgerBinanceSnapshot)
    (h : prepare_hedger_binance_snapshot env tenant hctx block = .ok s) :
    s.binance_paid_funding_fee =
      ((env.incomes.filter fun r =>
          decide (r.timestamp ≤ block.timestamp) && decide (r.amount < 0) &&
            decide (r.type = "FUNDING_FEE") && decide (r.tenant = tenant)).map
        BinanceIncome.amount).sum ∧
    s.binance_received_funding_fee =
      ((env.incomes.filter fun r =>
          decide (r.timestamp ≤ block.timestamp) && decide (0 < r.amount) &&
            decide (r.type = "FUNDING_FEE") && decide (r.tenant = tenant)).map
        BinanceIncome.amount).sum ∧
    (∀ g : BinanceIncome → String,
      fundingFeePaid (env.incomes.map fun r => { r with hedger := g r }) tenant
          block.timestamp
        = fundingFeePaid env.incomes tenant block.timestamp ∧
      fundingFeeReceived (env.incomes.map fun r => { r with hedger := g r }) tenant
          block.timestamp
        = fundingFeeReceived env.incomes tenant block.timestamp) := by
  obtain ⟨acct, rfl⟩ := prepare_ok_shape env tenant hctx block s h
  refine ⟨rfl, rfl, fun g => ⟨?_, ?_⟩⟩
  · refine sumAmounts_map_hedger _ g (fun r => ?_) env.incomes
    rfl
  · refine sumAmounts_map_hedger _ g (fun r => ?_) env.incomes
    rfl

/-- Witness for the amended C7: on the concrete environment the snapshot's paid
funding fee equals the tenant-wide sum -7 and is invariant under renaming every
row's hedger. -/
theorem c7_witness :
    (∃ s, prepare_hedger_binance_snapshot envC7 "t" hedgerC5 blockC4 = .ok s ∧
      s.binance_paid_funding_fee =
        ((envC7.incomes.filter fun r =>
            decide (r.timestamp ≤ blockC4.timestamp) && decide (r.amount < 0) &&
              decide (r.type = "FUNDING_FEE") && decide (r.tenant = "t")).map
          BinanceIncome.amount).sum) ∧
    fundingFeePaid (envC7.incomes.map fun r => { r with hedger := "h1" })
        "t" blockC4.timestamp
      = fundingFeePaid envC7.incomes "t" blockC4.timestamp := by
  have h : prepare_hedger_binance_snapshot envC7 "t" hedgerC5 blockC4 =
      .ok (assembleSnapshot envC7 "t" hedgerC5 blockC4 (liveFields envC7.account hedgerC5)) :=
    prepare_live_ok envC7 "t" hedgerC5 blockC4 rfl (by norm_num [envC7, acctW])
  obtain ⟨h1, h2, h3⟩ := c7_funding_fee_sums envC7 "t" hedgerC5 blockC4 _ h
  exact ⟨⟨_, h, h1⟩, (h3 fun _ => "h1").1⟩

/-- C8 counterexample: the reconciler writes HedgerSnapshot rows with
BaseModel.save, a plain insert: re-writing a row for the same key (same tenant,
actor name and timestamp, here the re-run of the same block) is rejected with a
duplicate-key error instead of overwriting the existing row in place. -/
theorem c8_counterexample :
    rowC8b.tenant = rowC8.tenant ∧ rowC8b.name = rowC8.name ∧
    rowC8b.timestamp = rowC8.timestamp ∧
    saveRow [] rowC8 = .ok [rowC8] ∧
    saveRow [rowC8] rowC8b = .error SaveError.duplicateKey := by
  exact ⟨rfl, rfl, rfl, rfl, rfl⟩

/-- C8 (amended): writing a HedgerSnapshot through the reconciler's save path is a
plain insert that fails on an existing primary key (see the counterexample); the
idempotent-overwrite behaviour the claim describes is that of BaseModel.upsert:
re-upserting a row with the same key overwrites the previous row in place - the
second upsert gives exactly the table a single upsert of the new row would give,
the new row is present, and when the key was already present no row is added. -/
theorem c8_upsert_overwrites (table : List HedgerBinanceSnapshot)
    (r r' : HedgerBinanceSnapshot) (hk : r.timestamp = r'.timestamp) :
    upsertRow (upsertRow table r) r' = upsertRow table r' ∧
    r' ∈ upsertRow (upsertRow table r) r' ∧
    ((table.any fun x => decide (x.timestamp = r.timestamp)) = true →
      (upsertRow table r).length = table.length) := by
  have key : (table.any fun x => decide (x.timestamp = r.timestamp))
      = (table.any fun x => decide (x.timestamp = r'.timestamp)) := by
    rw [hk]
  have main : upsertRow (upsertRow table r) r' = upsertRow table r' := by
    by_cases hin : (table.any fun x => decide (x.timestamp = r.timestamp)) = true
    · have hrhs : (table.any fun x => decide (x.timestamp = r'.timestamp)) = true :=
        key.symm.trans hin
      have hin' : ((table.map fun x => if x.timestamp = r.timestamp then r else x).any
          fun x => decide (x.timestamp = r'.timestamp)) = true := by
        rw [List.any_eq_true] at hin ⊢
        obtain ⟨x, hx, hxts⟩ := hin
        refine ⟨if x.timestamp = r.timestamp then r else x, List.mem_map_of_mem _ hx, ?_⟩
        rw [if_pos (of_decide_eq_true hxts), decide_eq_true_eq]
        exact hk
      unfold upsertRow
      rw [if_pos hin, if_pos hin', if_pos hrhs, List.map_map]
      apply List.map_congr_left
      intro x _
      by_cases hx : x.timestamp = r.timestamp
      · simp only [Function.comp_apply]
        rw [if_pos hx, if_pos hk, if_pos (hx.trans hk)]
      · simp only [Function.comp_apply]
        rw [if_neg hx, if_neg fun hxe => hx (hxe.trans hk.symm)]
    · have hrhs : ¬(table.any fun x => decide (x.timestamp = r'.timestamp)) = true :=
        fun h => hin (key.trans h)
      have hnone : ∀ x ∈ table, ¬x.timestamp = r.timestamp := by
        intro x hx hxts
        exact hin (List.any_eq_true.mpr ⟨x, hx, decide_eq_true hxts⟩)
      have hin' : ((table ++ [r]).any fun x => decide (x.timestamp = r'.timestamp)) = true := by
        rw [List.any_eq_true]
        exact ⟨r, by simp, decide_eq_true hk⟩
      unfold upsertRow
      rw [if_neg hin, if_pos hin', if_neg hrhs, List.map_append]
      have h1 : (table.map fun x => if x.timestamp = r'.timestamp then r' else x) = table := by
        conv_rhs => rw [← List.map_id table]
        apply List.map_congr_left
        intro x hx
        rw [if_neg fun hxe => hnone x hx (hxe.trans hk.symm)]
        rfl
      rw [h1]
      simp [hk]
  refine ⟨main, ?_, ?_⟩
  · rw [main]
    unfold upsertRow
    by_cases hin2 : (table.any fun x => decide (x.timestamp = r'.timestamp)) = true
    · rw [if_pos hin2]
      rw [List.any_eq_true] at hin2
      obtain ⟨x, hx, hxts⟩ := hin2
      exact List.mem_map.mpr ⟨x, hx, by rw [if_pos (of_decide_eq_true hxts)]⟩
    · rw [if_neg hin2]
      simp
  · intro hin
    unfold upsertRow
    rw [if_pos hin, List.length_map]

/-- Witness for the amended C8: re-upserting the re-run row for the same key over
a one-row table overwrites in place, leaving exactly the new row, never a second
row and never an error. -/
theorem c8_witness :
    upsertRow (upsertRow [rowC8] rowC8) rowC8b = upsertRow [rowC8] rowC8b ∧
    rowC8b ∈ upsertRow (upsertRow [rowC8] rowC8) rowC8b ∧
    ((([rowC8] : List HedgerBinanceSnapshot).any
        fun x => decide (x.timestamp = rowC8.timestamp)) = true →
      (upsertRow [rowC8] rowC8).length = ([rowC8] : List HedgerBinanceSnapshot).length) ∧
    upsertRow [rowC8] rowC8b = [rowC8b] := by
  obtain ⟨h1, h2, h3⟩ := c8_upsert_overwrites [rowC8] rowC8 rowC8b rfl
  exact ⟨h1, h2, h3, rfl⟩

/-- Helper: a failing entity walk reports an indexer position below the target. -/
lemma runEntitySyncs_some (idxOf : ℕ → ℤ) (target : ℤ) :
    ∀ (es : List SyncedEntityType) (pos : ℕ) (n : ℤ),
      runEntitySyncs idxOf target es pos = some n →
      n < target ∧ ∃ j, n = idxOf (pos + j) := by
  intro es
  induction es with
  | nil => intro pos n h; simp [runEntitySyncs] at h
  | cons e rest ih =>
      intro pos n h
      rw [runEntitySyncs] at h
      split_ifs at h with hlt
      · obtain rfl : idxOf pos = n := by injection h
        exact ⟨hlt, 0, rfl⟩
      · obtain ⟨h1, j, hj⟩ := ih (pos + 1) n h
        exact ⟨h1, j + 1, by rw [hj]; exact congrArg idxOf (by omega)⟩

/-- Helper: a fully successful entity walk had the indexer at or past the target
at every entity. -/
lemma runEntitySyncs_none (idxOf : ℕ → ℤ) (target : ℤ) :
    ∀ (es : List SyncedEntityType) (pos : ℕ),
      runEntitySyncs idxOf target es pos = none →
      ∀ i, i < es.length → target ≤ idxOf (pos + i) := by
  intro es
  induction es with
  | nil => intro pos _ i hi; simp at hi
  | cons e rest ih =>
      intro pos h i hi
      rw [runEntitySyncs] at h
      by_cases hlt : idxOf pos < target
      · rw [if_pos hlt] at h
        exact absurd h (by simp)
      · rw [if_neg hlt] at h
        cases i with
        | zero => simpa using not_lt.mp hlt
        | succ i' =>
            have := ih (pos + 1) h i' (by simpa [Nat.succ_lt_succ_iff] using hi)
            rw [show pos + (i' + 1) = pos + 1 + i' by omega]
            exact this

/-- Helper: the one-pass unfolding of sync_data on an indexer-lag error. -/
lemma sync_data_lag_step (env : SyncEnv) (floor stp : ℤ) (fuel k : ℕ)
    (cfg : RuntimeConfiguration) (n : ℤ)
    (h : runEntitySyncs (env.idx k) (env.head (2 * k) - cfg.snapshotBlockLag) syncOrder 0
        = some n) :
    sync_data env floor stp (fuel + 1) k cfg =
      consCommit ⟨.lagRecovery, { cfg with snapshotBlockLag := env.head (2 * k + 1) - n }⟩
        (sync_data env floor stp fuel (k + 1)
          { cfg with snapshotBlockLag := env.head (2 * k + 1) - n }) := by
  simp only [sync_data, h]

/-- Helper: the one-pass unfolding of sync_data on success. -/
lemma sync_data_success_step (env : SyncEnv) (floor stp : ℤ) (fuel k : ℕ)
    (cfg : RuntimeConfiguration)
    (h : runEntitySyncs (env.idx k) (env.head (2 * k) - cfg.snapshotBlockLag) syncOrder 0
        = none) :
    sync_data env floor stp (fuel + 1) k cfg =
      .ok [⟨.syncSuccess,
            { cfg with
                lastSyncBlock := env.head (2 * k) - cfg.snapshotBlockLag,
                snapshotBlockLag := max (cfg.snapshotBlockLag - stp) floor }⟩]
        (k + 1)
        { cfg with
            lastSyncBlock := env.head (2 * k) - cfg.snapshotBlockLag,
            snapshotBlockLag := max (cfg.snapshotBlockLag - stp) floor }
        (env.head (2 * k) - cfg.snapshotBlockLag) := by
  simp only [sync_data, h]

/-- Helper: chains of commits concatenate. -/
lemma chainCfg_append {R : RuntimeConfiguration → Commit → Prop} :
    ∀ (l₁ : List Commit) (a b c : RuntimeConfiguration) (l₂ : List Commit),
      ChainCfg R a l₁ b → ChainCfg R b l₂ c → ChainCfg R a (l₁ ++ l₂) c := by
  intro l₁
  induction l₁ with
  | nil =>
      intro a b c l₂ h₁ h₂
      have hab : a = b := h₁
      rw [List.nil_append, hab]
      exact h₂
  | cons hd tl ih =>
      intro a b c l₂ h₁ h₂
      exact ⟨h₁.1, ih hd.cfg b c l₂ h₁.2 h₂⟩

/-- Helper: the indexer head is monotone over any number of passes. -/
lemma idx_mono_le (env : SyncEnv) (hA : IdxMonoAcross env) :
    ∀ k k' : ℕ, k ≤ k' → env.idx k 0 ≤ env.idx k' 0 := by
  intro k k' h
  induction k' with
  | zero => cases Nat.le_zero.mp h; exact le_rfl
  | succ m ih =>
      rcases Nat.lt_or_ge k (m + 1) with hlt | hge
      · exact le_trans (ih (Nat.lt_succ_iff.mp hlt)) (hA m)
      · cases le_antisymm h hge; exact le_rfl

/-- Helper: a successful do_fetch_snapshot committed lastSnapshotBlock and had a
falsified stale condition. -/
lemma do_fetch_ok_inv (actors : TenantActors) (cfg : RuntimeConfiguration)
    (blockNumber : ℤ) (cfg2 : RuntimeConfiguration) (rows : List SnapshotWrite)
    (h : do_fetch_snapshot actors cfg blockNumber = .ok (cfg2, rows)) :
    cfg2 = { cfg with lastSnapshotBlock := some blockNumber } ∧
    ¬(pyTruthy cfg.lastSnapshotBlock = true ∧ blockNumber ≤ cfg.lastSnapshotBlock.getD 0) := by
  unfold do_fetch_snapshot at h
  split_ifs at h with hc
  simp only [Except.ok.injEq, Prod.mk.injEq] at h
  constructor
  · exact h.1.symm
  · intro hP
    refine hc ?_
    rw [Bool.and_eq_true]
    exact ⟨hP.1, decide_eq_true hP.2⟩

/-- Helper: a commit that leaves lastSnapshotBlock unchanged is monotone on it. -/
lemma lsb_mono_refl {cfg₁ cfg₂ : RuntimeConfiguration}
    (h : cfg₂.lastSnapshotBlock = cfg₁.lastSnapshotBlock) :
    ∀ v w, cfg₁.lastSnapshotBlock = some v → cfg₂.lastSnapshotBlock = some w → v ≤ w := by
  intro v w hv hw
  rw [h, hv, Option.some.injEq] at hw
  omega

/-- Helper: the committed-trace and invariant properties of one full sync_data
call: on success it yields a commit chain from the starting configuration to the
final one, re-establishes the invariant at the next pass, resolves a non-negative
target equal to the final lastSyncBlock, and leaves lastSnapshotBlock untouched. -/
lemma sync_data_ok_spec (env : SyncEnv) (floor stp : ℤ)
    (hH : HeadMono env) (hW : IdxMonoWithin env) (hA : IdxMonoAcross env)
    (hN : IdxNonneg env) (hstp : 0 ≤ stp) :
    ∀ (fuel k : ℕ) (cfg : RuntimeConfiguration) (tr : List Commit) (k' : ℕ)
      (cfg' : RuntimeConfiguration) (target : ℤ),
      SyncInv env floor k cfg →
      sync_data env floor stp fuel k cfg = .ok tr k' cfg' target →
      ChainCfg (commitStepOK floor stp) cfg tr cfg' ∧
      SyncInv env floor k' cfg' ∧
      cfg'.lastSyncBlock = target ∧
      cfg'.lastSnapshotBlock = cfg.lastSnapshotBlock ∧
      0 ≤ target ∧ k < k' := by
  intro fuel
  induction fuel with
  | zero =>
      intro k cfg tr k' cfg' target _ hrun
      simp [sync_data] at hrun
  | succ fuel ih =>
      intro k cfg tr k' cfg' target hinv hrun
      obtain ⟨hf, hhd, hts, hti⟩ := hinv
      rcases hB : runEntitySyncs (env.idx k) (env.head (2 * k) - cfg.snapshotBlockLag)
          syncOrder 0 with _ | n
      · -- the pass succeeded
        rw [sync_data_success_step env floor stp fuel k cfg hB] at hrun
        simp only [SyncResult.ok.injEq] at hrun
        obtain ⟨rfl, rfl, rfl, rfl⟩ := hrun
        have hle : max (cfg.snapshotBlockLag - stp) floor ≤ cfg.snapshotBlockLag :=
          max_le (by omega) hf
        have hh02 : env.head (2 * k) ≤ env.head (2 * (k + 1)) := hH _ _ (by omega)
        have hidx : env.head (2 * k) - cfg.snapshotBlockLag ≤ env.idx k 0 := by
          have := runEntitySyncs_none (env.idx k) _ syncOrder 0 hB 0 (by decide)
          simpa using this
        refine ⟨⟨⟨hts, lsb_mono_refl rfl, ?c, ?d, fun _ => ⟨rfl, hle⟩, ?f,
            le_max_right _ _⟩, rfl⟩,
          ⟨le_max_right _ _, ?ii, ?iii, ?iv⟩, rfl, rfl, ?tgt, by omega⟩
        case c => intro hlt; exact absurd hlt (not_lt.mpr hle)
        case d => intro hkind; simp at hkind
        case f => intro hkind; simp at hkind
        case ii =>
          show max (cfg.snapshotBlockLag - stp) floor ≤ env.head (2 * (k + 1))
          omega
        case iii =>
          show env.head (2 * k) - cfg.snapshotBlockLag ≤
            env.head (2 * (k + 1)) - max (cfg.snapshotBlockLag - stp) floor
          omega
        case iv =>
          show env.head (2 * k) - cfg.snapshotBlockLag ≤ env.idx (k + 1) 0
          exact le_trans hidx (hA k)
        case tgt =>
          show (0 : ℤ) ≤ env.head (2 * k) - cfg.snapshotBlockLag
          omega
      · -- the pass raised the indexer-lag error and recursed
        rw [sync_data_lag_step env floor stp fuel k cfg n hB] at hrun
        obtain ⟨hn_lt, j, hj⟩ := runEntitySyncs_some (env.idx k) _ syncOrder 0 n hB
        have hjw : env.idx k 0 ≤ n := by
          rw [hj]; simpa using hW k (0 + j)
        have hn0 : (0 : ℤ) ≤ n := le_trans (hN k 0) hjw
        have h01 : env.head (2 * k) ≤ env.head (2 * k + 1) := hH _ _ (by omega)
        have h12 : env.head (2 * k + 1) ≤ env.head (2 * (k + 1)) := hH _ _ (by omega)
        rcases hR : sync_data env floor stp fuel (k + 1)
            { cfg with snapshotBlockLag := env.head (2 * k + 1) - n }
          with ⟨tr₀, k₀, c₀, b₀⟩ | tr₀
        · rw [hR] at hrun
          simp only [consCommit, SyncResult.ok.injEq] at hrun
          obtain ⟨rfl, rfl, rfl, rfl⟩ := hrun
          have hinv₁ : SyncInv env floor (k + 1)
              { cfg with snapshotBlockLag := env.head (2 * k + 1) - n } := by
            refine ⟨?_, ?_, ?_, ?_⟩
            · show floor ≤ env.head (2 * k + 1) - n
              omega
            · show env.head (2 * k + 1) - n ≤ env.head (2 * (k + 1))
              omega
            · show cfg.lastSyncBlock ≤ env.head (2 * (k + 1)) - (env.head (2 * k + 1) - n)
              omega
            · show cfg.lastSyncBlock ≤ env.idx (k + 1) 0
              exact le_trans hti (hA k)
          obtain ⟨hch, hinv', hlast, hlsb, htgt, hkk⟩ :=
            ih (k + 1) _ tr₀ k₀ c₀ b₀ hinv₁ hR
          refine ⟨⟨⟨le_refl _, lsb_mono_refl rfl, fun _ => rfl, fun _ => ?incr, ?e, ?f2,
              ?fl⟩, hch⟩, hinv', hlast, hlsb, htgt, by omega⟩
          case incr =>
            show cfg.snapshotBlockLag < env.head (2 * k + 1) - n
            omega
          case e => intro hkind; simp at hkind
          case f2 => intro hkind; simp at hkind
          case fl =>
            show floor ≤ env.head (2 * k + 1) - n
            omega
        · rw [hR] at hrun
          simp [consCommit] at hrun

/-- Helper: the committed-trace and invariant properties of a whole sequence of
pipeline runs. -/
lemma pipeline_ok_spec (env : SyncEnv) (floor stp : ℤ) (actors : TenantActors)
    (getSnap : Bool) (fuel : ℕ)
    (hH : HeadMono env) (hW : IdxMonoWithin env) (hA : IdxMonoAcross env)
    (hN : IdxNonneg env) (hstp : 0 ≤ stp) :
    ∀ (runs k : ℕ) (cfg : RuntimeConfiguration) (tr : List Commit) (k' : ℕ)
      (cfg' : RuntimeConfiguration),
      SyncInv env floor k cfg →
      pipeline env floor stp actors getSnap fuel runs k cfg = .ok tr k' cfg' →
      ChainCfg (commitStepOK floor stp) cfg tr cfg' ∧ SyncInv env floor k' cfg' := by
  intro runs
  induction runs with
  | zero =>
      intro k cfg tr k' cfg' hinv hrun
      simp only [pipeline, PipeResult.ok.injEq] at hrun
      obtain ⟨rfl, rfl, rfl⟩ := hrun
      exact ⟨rfl, hinv⟩
  | succ runs ih =>
      intro k cfg tr k' cfg' hinv hrun
      rw [pipeline] at hrun
      split at hrun
      · -- sync_data ran out of fuel
        exact absurd hrun (by simp)
      · rename_i tr₁ k₁ cfg₁ target hS
        obtain ⟨hch₁, hinv₁, hlast₁, hlsb₁, htgt₁, _⟩ :=
          sync_data_ok_spec env floor stp hH hW hA hN hstp fuel k cfg tr₁ k₁ cfg₁ target
            hinv hS
        split at hrun
        · -- snapshot step enabled
          split at hrun
          · -- do_fetch_snapshot raised
            exact absurd hrun (by simp)
          · rename_i pr cfg₂ rows hF
            obtain ⟨hcfg₂, hcond⟩ := do_fetch_ok_inv actors cfg₁ target cfg₂ rows hF
            subst hcfg₂
            rcases hP : pipeline env floor stp actors getSnap fuel runs k₁
                { cfg₁ with lastSnapshotBlock := some target }
              with ⟨tr₂, k₂, c₂⟩ | tr₂ <;> rw [hP] at hrun <;>
              simp only [appendTrace, PipeResult.ok.injEq] at hrun
            · obtain ⟨rfl, rfl, rfl⟩ := hrun
              have hstep : commitStepOK floor stp cfg₁
                  ⟨.snapshotSuccess, { cfg₁ with lastSnapshotBlock := some target }⟩ := by
                refine ⟨le_refl _, ?lsb, ?c, ?d, ?e, fun _ => rfl, hinv₁.1⟩
                case lsb =>
                  intro v w hv hw
                  have hw' : some target = some w := hw
                  rw [Option.some.injEq] at hw'
                  subst hw'
                  by_cases hv0 : v = 0
                  · omega
                  · have hnot : ¬target ≤ v := by
                      intro hge
                      refine hcond ⟨?_, ?_⟩
                      · rw [hv]; simp [pyTruthy, hv0]
                      · rw [hv]; exact hge
                    omega
                case c => intro hlt; exact absurd hlt (lt_irrefl _)
                case d => intro hkind; simp at hkind
                case e => intro hkind; simp at hkind
              have hinv₂ : SyncInv env floor k₁
                  { cfg₁ with lastSnapshotBlock := some target } := hinv₁
              obtain ⟨hch₂, hinv'⟩ := ih k₁ _ tr₂ k₂ c₂ hinv₂ hP
              refine ⟨?_, hinv'⟩
              refine chainCfg_append _ cfg _ c₂ tr₂ ?_ hch₂
              exact chainCfg_append tr₁ cfg cfg₁ _ _ hch₁ ⟨hstep, rfl⟩
            · exact absurd hrun (by simp)
        · -- no snapshot step
          rcases hP : pipeline env floor stp actors getSnap fuel runs k₁ cfg₁
            with ⟨tr₂, k₂, c₂⟩ | tr₂ <;> rw [hP] at hrun <;>
            simp only [appendTrace, PipeResult.ok.injEq] at hrun
          · obtain ⟨rfl, rfl, rfl⟩ := hrun
            obtain ⟨hch₂, hinv₂⟩ := ih k₁ cfg₁ tr₂ k₂ c₂ hinv₁ hP
            exact ⟨chainCfg_append tr₁ cfg cfg₁ c₂ tr₂ hch₁ hch₂, hinv₂⟩
          · exact absurd hrun (by simp)

/-- C2: across every sequence of successful pipeline runs (under the environment
sanity conditions that chain heads and the indexer head never decrease, the
indexer has indexed a non-negative prefix, the lag step is non-negative, and the
starting configuration is consistent: lag between floor and head, cursor at most
the first target and the indexer head), the committed-configuration trace
satisfies, between every pair of consecutive commits: lastSyncBlock and
lastSnapshotBlock never decrease; snapshotBlockLag strictly increases exactly at
indexer-lag recovery commits, is replaced by max (lag - step) floor (hence never
increased) at successful sync commits, is untouched by snapshot commits, and
never drops below the configured floor. -/
theorem c2_monotonic_cursor_invariants (env : SyncEnv) (floor stp : ℤ)
    (actors : TenantActors) (getSnap : Bool) (fuel runs : ℕ)
    (cfg : RuntimeConfiguration) (tr : List Commit) (k' : ℕ)
    (cfg' : RuntimeConfiguration)
    (hH : HeadMono env) (hW : IdxMonoWithin env) (hA : IdxMonoAcross env)
    (hN : IdxNonneg env) (hstp : 0 ≤ stp)
    (hfloor : floor ≤ cfg.snapshotBlockLag)
    (hlag : cfg.snapshotBlockLag ≤ env.head 0)
    (hsync1 : cfg.lastSyncBlock ≤ env.head 0 - cfg.snapshotBlockLag)
    (hsync2 : cfg.lastSyncBlock ≤ env.idx 0 0)
    (hok : pipeline env floor stp actors getSnap fuel runs 0 cfg = .ok tr k' cfg') :
    ChainCfg (commitStepOK floor stp) cfg tr cfg' :=
  (pipeline_ok_spec env floor stp actors getSnap fuel hH hW hA hN hstp runs 0 cfg tr k'
      cfg' ⟨hfloor, hlag, hsync1, hsync2⟩ hok).1

/-- Witness for C2: one successful run in a steady environment (head 100, indexer
95, floor 10, step 5) from cursor 80 and lag 15: the sync commit advances
lastSyncBlock to 85 and tightens the lag to 10, the snapshot commit sets
lastSnapshotBlock to 85, and the resulting two-commit trace satisfies the chained
monotonicity relation. -/
theorem c2_witness :
    pipeline envW 10 5 actorsC3 true 1 1 0 cfgW = .ok trW 1 cfgW2 ∧
    ChainCfg (commitStepOK 10 5) cfgW trW cfgW2 := by
  have hok : pipeline envW 10 5 actorsC3 true 1 1 0 cfgW = .ok trW 1 cfgW2 := by decide
  refine ⟨hok, ?_⟩
  exact c2_monotonic_cursor_invariants envW 10 5 actorsC3 true 1 1 cfgW trW 1 cfgW2
    (fun _ _ _ => le_rfl) (fun _ _ => le_rfl) (fun _ => le_rfl)
    (fun _ _ => by norm_num [envW])
    (by norm_num) (by decide) (by decide) (by decide) (by decide) hok

end Symmio
